import Mathlib

/-!
Shallow embedding of `pmgrestclient` (`src/pmgrestclient/__init__.py`):
a minimal REST-client base class.  The embedding models

* `ApiCallException` (the structured failure object) as `ErrSig`,
* decoded JSON/Python values as `PyVal` (JSON object keys are strings;
  a decoded dict has unique keys),
* the dispatch loop `ApiBase._call` (lines 85-109) as `callAux` /
  `ApiBase._call`, parameterised by an abstract transport
  `net : Nat → Option Headers → Attempt` giving the outcome of each attempt
  (a `requests.exceptions.ConnectionError` or a response), by the caller's
  `headers` argument and by the overridable `headers()` hook result,
* observable effects (requests issued, `logger.warning`, `time.sleep`,
  the error-classification block with its `logger.error`) as a trace of `Ev`,
* `ApiBase.download_file` (lines 70-80) over an explicit file-system state.
-/

namespace PmgRestClient

/-- A decoded JSON value as a Python object.  `pyDict` entries come from
`json.loads`, so keys are unique strings. -/
inductive PyVal : Type where
  | pyNone : PyVal
  | pyBool (b : Bool) : PyVal
  | pyInt (n : Int) : PyVal
  | pyStr (s : String) : PyVal
  | pyList (xs : List PyVal) : PyVal
  | pyDict (entries : List (String × PyVal)) : PyVal

/-- A member of the caller-supplied error enumeration `error_code_type`.
`code` models `e.value[0]` (the stable code), `name` models `e.name`. -/
structure Member : Type where
  code : String
  name : String
deriving DecidableEq, Repr

/-- Lookup in `{e.value[0]: e for e in error_code_type}`: a Python
dict comprehension lets the last member with a given code win, hence the
`reverse`. -/
def errorsByCodeGet (members : List Member) (c : String) : Option Member :=
  List.lookup c ((members.map fun m => (m.code, m)).reverse)

/-- The keyword arguments `ApiCallException` is raised with in this code
base: `status_code`, `error`, `url`, `response_body`, `message`; a field is
`none` when the corresponding kwarg is absent. -/
structure ErrSig : Type where
  status_code : Option Nat
  error : Option Member
  url : Option String
  response_body : Option PyVal
  message : Option String

/-- Result of the `ApiCallException.error` property: the `error` kwarg when
given, else the `EmptyError` placeholder (value `None`, name `None`). -/
inductive ErrorAttr : Type where
  | empty : ErrorAttr
  | member (m : Member) : ErrorAttr
deriving DecidableEq, Repr

/-- Property `ApiCallException.error`: `self.given_args.get('error', EmptyError())`. -/
def ErrSig.errorAttr (e : ErrSig) : ErrorAttr :=
  match e.error with
  | none => ErrorAttr.empty
  | some m => ErrorAttr.member m

/-- Property `ApiCallException.response_body`: `self.given_args.get('response_body', {})`. -/
def ErrSig.responseBodyAttr (e : ErrSig) : PyVal :=
  match e.response_body with
  | none => PyVal.pyDict []
  | some v => v

/-- An HTTP response: its status code and the result of decoding its body as
JSON (`none` when the body is not valid JSON, i.e. `resp.json()` raises
`JSONDecodeError`). -/
structure Resp : Type where
  status : Nat
  body : Option PyVal

/-- The outcome of one transport call: `requests.exceptions.ConnectionError`,
or a response. -/
inductive Attempt : Type where
  | connErr : Attempt
  | resp (r : Resp) : Attempt

/-- Module `json(resp)` helper (lines 120-124): decoded body, `{}` when the
body is not valid JSON. -/
def jsonOf (body : Option PyVal) : PyVal :=
  match body with
  | none => PyVal.pyDict []
  | some v => v

/-- Observable effects of the dispatch routine: a transport request issued,
the `logger.warning` before a 404 retry, the `time.sleep(retry_delay)`, and
entry into the error-classification block (lines 100-109, with its
`logger.error`). -/
inductive Ev : Type where
  | request : Ev
  | warn : Ev
  | sleep (d : Nat) : Ev
  | classifyStep : Ev
deriving DecidableEq, Repr

/-- Result of a dispatched call: the handler's value, an `ApiCallException`
(`apiErr`), or an unhandled Python exception of the named type (`pyErr`). -/
inductive Outcome (α : Type) : Type where
  | ok (a : α) : Outcome α
  | apiErr (e : ErrSig) : Outcome α
  | pyErr (exnName : String) : Outcome α

/-- Result of `resp_j.get('error')` on a Python value: an `AttributeError`
when `resp_j` is not a dict, else the looked-up value (`None` default). -/
inductive GetRes : Type where
  | attrError : GetRes
  | val (v : PyVal) : GetRes

/-- Python `resp_j.get('error')`: only dicts have `.get`. -/
def pyGet (v : PyVal) (key : String) : GetRes :=
  match v with
  | PyVal.pyDict entries => GetRes.val ((List.lookup key entries).getD PyVal.pyNone)
  | _ => GetRes.attrError

/-- Result of `error in self.errors_by_code`: a `TypeError` when `error` is
unhashable (a list or dict), else found/not-found. -/
inductive InCheck : Type where
  | typeError : InCheck
  | found (m : Member) : InCheck
  | notFound : InCheck

/-- Python `error in self.errors_by_code` (and the subsequent `.get(error)`): dict
keys are the string codes, so only a matching string finds a member;
unhashable values raise `TypeError`. -/
def pyInErrors (v : PyVal) (members : List Member) : InCheck :=
  match v with
  | PyVal.pyList _ => InCheck.typeError
  | PyVal.pyDict _ => InCheck.typeError
  | PyVal.pyStr s =>
    match errorsByCodeGet members s with
    | some m => InCheck.found m
    | none => InCheck.notFound
  | _ => InCheck.notFound

/-- The error-classification block after the retry loop (lines 100-109):
decode the final body (`{}` on decode failure), log the error, read the
application error code via `response_error_code` (default
`response.get('error')`), and abort with the matched member or generically.
`ApiCallException` is not a `ValueError`, so the `except ValueError: pass`
catches nothing here, while `AttributeError` / `TypeError` escape. -/
def classify {α : Type} (members : List Member) (url : String) (r : Resp) :
    List Ev × Outcome α :=
  let resp_j := jsonOf r.body
  match pyGet resp_j "error" with
  | GetRes.attrError => ([Ev.classifyStep], Outcome.pyErr "AttributeError")
  | GetRes.val ev =>
    match pyInErrors ev members with
    | InCheck.typeError => ([Ev.classifyStep], Outcome.pyErr "TypeError")
    | InCheck.found m =>
      ([Ev.classifyStep],
        Outcome.apiErr ⟨some r.status, some m, some url, some resp_j, none⟩)
    | InCheck.notFound =>
      ([Ev.classifyStep],
        Outcome.apiErr ⟨some r.status, none, some url, none, none⟩)

/-- HTTP headers as passed to the transport. -/
abbrev Headers := List (String × String)

/-- Client configuration (`ApiBase.__init__`): base URL, the members of
`error_code_type`, and the 404-retry count and delay
(`stat404retry_count`, `stat404retry_delay`). -/
structure Config : Type where
  base : String
  members : List Member
  retry_count : Nat
  retry_delay : Nat
deriving DecidableEq, Repr

/-- Model of `self._url(path, path_abs)` (lines 82-83). -/
def urlOf (base path : String) (path_abs : Bool) : String :=
  if path_abs then path else base ++ "/" ++ path

/-- Model of `headers or self.headers(**kwargs)` (line 89): Python's `or` takes the
hook's result when the caller's argument is falsy (`None` or `{}`). -/
def effectiveHeaders (hdrs hook : Option Headers) : Option Headers :=
  match hdrs with
  | none => hook
  | some l => if l.isEmpty then hook else some l

/-- The retry loop of `ApiBase._call` (lines 87-98) from attempt index `i`,
together with the classification block it falls through to.  `net j h` is
the outcome of the transport call of iteration `j` with headers `h`. -/
def callAux {α : Type} (cfg : Config) (net : Nat → Option Headers → Attempt)
    (hdrs hook : Option Headers) (url : String) (handler : Resp → α)
    (i : Nat) : List Ev × Outcome α :=
  match net i (effectiveHeaders hdrs hook) with
  | Attempt.connErr =>
    ([Ev.request], Outcome.apiErr ⟨none, none, some url, none, some "Connection error"⟩)
  | Attempt.resp r =>
    if 200 ≤ r.status ∧ r.status ≤ 299 then
      ([Ev.request], Outcome.ok (handler r))
    else if h : r.status = 404 ∧ i < cfg.retry_count then
      let rest := callAux cfg net hdrs hook url handler (i + 1)
      (Ev.request :: Ev.warn :: Ev.sleep cfg.retry_delay :: rest.1, rest.2)
    else
      let c := classify cfg.members url r
      (Ev.request :: c.1, c.2)
termination_by cfg.retry_count - i
decreasing_by omega

/-- Model of `ApiBase._call` (lines 85-109): the dispatch routine all verb methods
funnel into, starting the loop at `i = 0` with the resolved URL. -/
def ApiBase._call {α : Type} (cfg : Config) (net : Nat → Option Headers → Attempt)
    (hdrs hook : Option Headers) (path : String) (path_abs : Bool)
    (handler : Resp → α) : List Ev × Outcome α :=
  callAux cfg net hdrs hook (urlOf cfg.base path path_abs) handler 0

/-- Model of `ApiBase.get`: a thin wrapper passing its transport function
(`requests.get`, here abstracted as `net`) and its arguments into `_call`. -/
def ApiBase.get {α : Type} (cfg : Config) (net : Nat → Option Headers → Attempt)
    (hdrs hook : Option Headers) (path : String) (path_abs : Bool)
    (handler : Resp → α) : List Ev × Outcome α :=
  ApiBase._call cfg net hdrs hook path path_abs handler

/-- Model of `ApiBase.delete`: the same thin wrapper over `_call`. -/
def ApiBase.delete {α : Type} (cfg : Config) (net : Nat → Option Headers → Attempt)
    (hdrs hook : Option Headers) (path : String) (path_abs : Bool)
    (handler : Resp → α) : List Ev × Outcome α :=
  ApiBase._call cfg net hdrs hook path path_abs handler

/-- Model of `ApiBase.put`: the same thin wrapper over `_call`. -/
def ApiBase.put {α : Type} (cfg : Config) (net : Nat → Option Headers → Attempt)
    (hdrs hook : Option Headers) (path : String) (path_abs : Bool)
    (handler : Resp → α) : List Ev × Outcome α :=
  ApiBase._call cfg net hdrs hook path path_abs handler

/-- Model of `ApiBase.post`: the same thin wrapper over `_call`. -/
def ApiBase.post {α : Type} (cfg : Config) (net : Nat → Option Headers → Attempt)
    (hdrs hook : Option Headers) (path : String) (path_abs : Bool)
    (handler : Resp → α) : List Ev × Outcome α :=
  ApiBase._call cfg net hdrs hook path path_abs handler

/-- Model of `ApiBase.patch`: the same thin wrapper over `_call`. -/
def ApiBase.patch {α : Type} (cfg : Config) (net : Nat → Option Headers → Attempt)
    (hdrs hook : Option Headers) (path : String) (path_abs : Bool)
    (handler : Resp → α) : List Ev × Outcome α :=
  ApiBase._call cfg net hdrs hook path path_abs handler

/-- Bytes written to a file. -/
abbrev Bytes := List Nat

/-- File-system state: an association list from path to contents; a later
write shadows an earlier one. -/
abbrev FS := List (String × Bytes)

/-- Overwrite the file at `p` with `content`. -/
def fsWrite (fs : FS) (p : String) (content : Bytes) : FS :=
  (p, content) :: fs

/-- Current contents of the file at `p`, `none` when it does not exist. -/
def fsRead (fs : FS) (p : String) : Option Bytes :=
  List.lookup p fs

/-- Model of `resp.ok` of the HTTP library: `False` exactly when
`raise_for_status` would raise, i.e. for status codes in [400, 600). -/
def respOk (s : Nat) : Bool :=
  ! decide (400 ≤ s ∧ s < 600)

/-- Model of `source_url[source_url.rfind('/') + 1:]` on the character list: the
suffix after the last `'/'`, or the whole string when there is none. -/
def afterLastSlashChars : List Char → List Char
  | [] => []
  | c :: cs => if c = '/' ∨ '/' ∈ cs then afterLastSlashChars cs else c :: cs

/-- The final path segment of a URL, as sliced by `download_file` (line 71). -/
def afterLastSlash (s : String) : String :=
  String.mk (afterLastSlashChars s.data)

/-- Model of `os.path.join(local_dir, filename)` with two posix arguments. -/
def join_path (a b : String) : String :=
  if b.startsWith "/" then b
  else if a = "" then b
  else if a.endsWith "/" then a ++ b
  else a ++ "/" ++ b

/-- The `iter_content(1024)` loop of `download_file` (lines 76-79): blocks
are written in order until the first empty block (`if not block: break`). -/
def takeUntilEmpty : List Bytes → List Bytes
  | [] => []
  | c :: cs => if c = [] then [] else c :: takeUntilEmpty cs

/-- Result of `download_file`: the local path, or an `ApiCallException`. -/
inductive DlOutcome : Type where
  | ok (localPath : String) : DlOutcome
  | err (e : ErrSig) : DlOutcome

/-- Model of `ApiBase.download_file` (lines 70-80): derive the local path from the
URL's final segment, open the file in `'wb'` mode (creating or truncating it)
*before* issuing the request, raise an `ApiCallException` with status code and
source URL when the response is not `ok`, else stream the blocks to the file.
`status` and `chunks` describe the response of `requests.get`; the sequential
block writes are modelled by one write of their concatenation. -/
def ApiBase.download_file (fs : FS) (source_url local_dir : String)
    (status : Nat) (chunks : List Bytes) : FS × DlOutcome :=
  let local_path := join_path local_dir (afterLastSlash source_url)
  let fs1 := fsWrite fs local_path []
  if respOk status = false then
    (fs1, DlOutcome.err ⟨some status, none, some source_url, none, none⟩)
  else
    (fsWrite fs1 local_path (takeUntilEmpty chunks).flatten, DlOutcome.ok local_path)

/-! ### Unfolding lemmas for the retry loop -/

/-- Iteration `i` hits a `ConnectionError`: `abort` raises immediately with
the generic message and the resolved URL. -/
theorem callAux_connErr {α : Type} (cfg : Config) (net : Nat → Option Headers → Attempt)
    (hdrs hook : Option Headers) (url : String) (handler : Resp → α) (i : Nat)
    (h : net i (effectiveHeaders hdrs hook) = Attempt.connErr) :
    callAux cfg net hdrs hook url handler i =
      ([Ev.request], Outcome.apiErr ⟨none, none, some url, none, some "Connection error"⟩) := by
  unfold callAux
  rw [h]

/-- Iteration `i` gets a 2xx response: return `handler res` at once. -/
theorem callAux_2xx {α : Type} (cfg : Config) (net : Nat → Option Headers → Attempt)
    (hdrs hook : Option Headers) (url : String) (handler : Resp → α) (i : Nat) (r : Resp)
    (h : net i (effectiveHeaders hdrs hook) = Attempt.resp r)
    (h1 : 200 ≤ r.status) (h2 : r.status ≤ 299) :
    callAux cfg net hdrs hook url handler i = ([Ev.request], Outcome.ok (handler r)) := by
  unfold callAux
  rw [h]
  simp [h1, h2]

/-- Iteration `i` gets a 404 with retries remaining: warn, sleep, retry. -/
theorem callAux_retry404 {α : Type} (cfg : Config) (net : Nat → Option Headers → Attempt)
    (hdrs hook : Option Headers) (url : String) (handler : Resp → α) (i : Nat) (r : Resp)
    (h : net i (effectiveHeaders hdrs hook) = Attempt.resp r)
    (h404 : r.status = 404) (hi : i < cfg.retry_count) :
    callAux cfg net hdrs hook url handler i =
      (Ev.request :: Ev.warn :: Ev.sleep cfg.retry_delay ::
          (callAux cfg net hdrs hook url handler (i + 1)).1,
        (callAux cfg net hdrs hook url handler (i + 1)).2) := by
  conv_lhs => unfold callAux
  rw [h]
  have hn2 : ¬ (200 ≤ r.status ∧ r.status ≤ 299) := by omega
  simp [hn2, h404, hi]

/-- Iteration `i` gets a response that is neither 2xx nor a retryable 404:
break out of the loop into the classification block. -/
theorem callAux_break {α : Type} (cfg : Config) (net : Nat → Option Headers → Attempt)
    (hdrs hook : Option Headers) (url : String) (handler : Resp → α) (i : Nat) (r : Resp)
    (h : net i (effectiveHeaders hdrs hook) = Attempt.resp r)
    (hn2 : ¬ (200 ≤ r.status ∧ r.status ≤ 299))
    (hn4 : ¬ (r.status = 404 ∧ i < cfg.retry_count)) :
    callAux cfg net hdrs hook url handler i =
      (Ev.request :: (classify (α := α) cfg.members url r).1,
        (classify (α := α) cfg.members url r).2) := by
  unfold callAux
  rw [h]
  simp [hn2, hn4]

/-- Whatever branch classification takes, its only observable effect is the
classification step itself (one `logger.error` / abort block). -/
theorem classify_fst {α : Type} (ms : List Member) (url : String) (r : Resp) :
    (classify (α := α) ms url r).1 = [Ev.classifyStep] := by
  unfold classify
  cases hg : pyGet (jsonOf r.body) "error" with
  | attrError => simp [hg]
  | val v => cases hi : pyInErrors v ms <;> simp [hg, hi]

/-- Classification never returns a successful value: it always raises. -/
theorem classify_ne_ok {α : Type} (ms : List Member) (url : String) (r : Resp) (a : α) :
    (classify ms url r).2 ≠ Outcome.ok a := by
  unfold classify
  cases hg : pyGet (jsonOf r.body) "error" with
  | attrError => simp [hg]
  | val v => cases hi : pyInErrors v ms <;> simp [hg, hi]

/-! ### Claims -/

/-- Claim C2: a response whose status code lies in [200, 299] makes the
dispatch routine return exactly `response_handler(response)`: the trace of
that iteration is a single request with no further retry iteration, no sleep
and no classification step, regardless of `retry_count` and `retry_delay`
(`ApiBase._call` is `callAux … 0`). -/
theorem c2_success_short_circuits {α : Type} (cfg : Config)
    (net : Nat → Option Headers → Attempt) (hdrs hook : Option Headers)
    (path : String) (path_abs : Bool) (handler : Resp → α) (i : Nat) (r : Resp)
    (h : net i (effectiveHeaders hdrs hook) = Attempt.resp r)
    (h1 : 200 ≤ r.status) (h2 : r.status ≤ 299) :
    callAux cfg net hdrs hook (urlOf cfg.base path path_abs) handler i =
        ([Ev.request], Outcome.ok (handler r)) ∧
      (i = 0 → ApiBase._call cfg net hdrs hook path path_abs handler =
        ([Ev.request], Outcome.ok (handler r))) := by
  refine ⟨callAux_2xx cfg net hdrs hook _ handler i r h h1 h2, fun hi => ?_⟩
  subst hi
  exact callAux_2xx cfg net hdrs hook _ handler 0 r h h1 h2

/-- Witness for C2 at a concrete input: one attempt returning 204 with
`retry_count = 3`. -/
theorem c2_success_short_circuits_witness :
    callAux ⟨"b", [], 3, 7⟩ (fun _ _ => Attempt.resp ⟨204, none⟩) none none
        (urlOf "b" "p" false) (fun r => r.status) 0 =
        ([Ev.request], Outcome.ok 204) ∧
      ((0 : Nat) = 0 → ApiBase._call ⟨"b", [], 3, 7⟩ (fun _ _ => Attempt.resp ⟨204, none⟩)
          none none "p" false (fun r => r.status) =
        ([Ev.request], Outcome.ok 204)) :=
  c2_success_short_circuits ⟨"b", [], 3, 7⟩ (fun _ _ => Attempt.resp ⟨204, none⟩)
    none none "p" false (fun r => r.status) 0 ⟨204, none⟩ rfl (by decide) (by decide)

/-- Claim C5: a `ConnectionError` at any attempt makes the dispatch routine
fail immediately with an `ApiCallException` carrying the generic message and
the resolved URL: a single request in the trace, so no retry, no sleep and no
classification, regardless of `retry_count`. -/
theorem c5_connection_error_aborts {α : Type} (cfg : Config)
    (net : Nat → Option Headers → Attempt) (hdrs hook : Option Headers)
    (path : String) (path_abs : Bool) (handler : Resp → α) (i : Nat)
    (h : net i (effectiveHeaders hdrs hook) = Attempt.connErr) :
    callAux cfg net hdrs hook (urlOf cfg.base path path_abs) handler i =
        ([Ev.request], Outcome.apiErr
          ⟨none, none, some (urlOf cfg.base path path_abs), none, some "Connection error"⟩) ∧
      (i = 0 → ApiBase._call cfg net hdrs hook path path_abs handler =
        ([Ev.request], Outcome.apiErr
          ⟨none, none, some (urlOf cfg.base path path_abs), none, some "Connection error"⟩)) := by
  refine ⟨callAux_connErr cfg net hdrs hook _ handler i h, fun hi => ?_⟩
  subst hi
  exact callAux_connErr cfg net hdrs hook _ handler 0 h

/-- Witness for C5 at a concrete input: a connection failure on the first
attempt with `retry_count = 4`. -/
theorem c5_connection_error_aborts_witness :
    callAux ⟨"b", [], 4, 2⟩ (fun _ _ => Attempt.connErr) none none
        (urlOf "b" "p" false) (fun r => r.status) 0 =
        ([Ev.request], Outcome.apiErr
          ⟨none, none, some (urlOf "b" "p" false), none, some "Connection error"⟩) ∧
      ((0 : Nat) = 0 → ApiBase._call ⟨"b", [], 4, 2⟩ (fun _ _ => Attempt.connErr)
          none none "p" false (fun r => r.status) =
        ([Ev.request], Outcome.apiErr
          ⟨none, none, some (urlOf "b" "p" false), none, some "Connection error"⟩)) :=
  c5_connection_error_aborts ⟨"b", [], 4, 2⟩ (fun _ _ => Attempt.connErr)
    none none "p" false (fun r => r.status) 0 rfl

/-- Claim C6: a response that is neither 2xx nor 404 breaks the retry loop at
once: the trace of that iteration is one request followed directly by the
classification step — no retry, no sleep, whatever `retry_count` is. -/
theorem c6_other_status_no_retry {α : Type} (cfg : Config)
    (net : Nat → Option Headers → Attempt) (hdrs hook : Option Headers)
    (path : String) (path_abs : Bool) (handler : Resp → α) (i : Nat) (r : Resp)
    (h : net i (effectiveHeaders hdrs hook) = Attempt.resp r)
    (hn2 : ¬ (200 ≤ r.status ∧ r.status ≤ 299)) (hn4 : r.status ≠ 404) :
    callAux cfg net hdrs hook (urlOf cfg.base path path_abs) handler i =
        ([Ev.request, Ev.classifyStep],
          (classify (α := α) cfg.members (urlOf cfg.base path path_abs) r).2) ∧
      (i = 0 → ApiBase._call cfg net hdrs hook path path_abs handler =
        ([Ev.request, Ev.classifyStep],
          (classify (α := α) cfg.members (urlOf cfg.base path path_abs) r).2)) := by
  have hb : ¬ (r.status = 404 ∧ i < cfg.retry_count) := fun hc => hn4 hc.1
  have key := callAux_break cfg net hdrs hook (urlOf cfg.base path path_abs) handler i r h hn2 hb
  rw [classify_fst] at key
  refine ⟨key, fun hi => ?_⟩
  subst hi
  exact key

/-- Witness for C6 at a concrete input: a 500 response on the first attempt
with `retry_count = 5`. -/
theorem c6_other_status_no_retry_witness :
    callAux ⟨"b", [], 5, 3⟩ (fun _ _ => Attempt.resp ⟨500, none⟩) none none
        (urlOf "b" "p" false) (fun r => r.status) 0 =
        ([Ev.request, Ev.classifyStep],
          (classify (α := Nat) [] (urlOf "b" "p" false) ⟨500, none⟩).2) ∧
      ((0 : Nat) = 0 → ApiBase._call ⟨"b", [], 5, 3⟩ (fun _ _ => Attempt.resp ⟨500, none⟩)
          none none "p" false (fun r => r.status) =
        ([Ev.request, Ev.classifyStep],
          (classify (α := Nat) [] (urlOf "b" "p" false) ⟨500, none⟩).2)) :=
  c6_other_status_no_retry ⟨"b", [], 5, 3⟩ (fun _ _ => Attempt.resp ⟨500, none⟩)
    none none "p" false (fun r => r.status) 0 ⟨500, none⟩ rfl (by decide) (by decide)

/-- Claim C3: a final non-2xx response whose decoded JSON body is an object
with an `error` value that is a known code makes the dispatch routine raise
an `ApiCallException` whose `error` attribute is the matched member, whose
`status_code` is the response's status, whose `response_body` is the decoded
body, and which carries the resolved URL.  `hfin` says the first response is
final (not a retried 404). -/
theorem c3_known_code_classified {α : Type} (cfg : Config)
    (net : Nat → Option Headers → Attempt) (hdrs hook : Option Headers)
    (path : String) (path_abs : Bool) (handler : Resp → α) (r : Resp)
    (d : List (String × PyVal)) (x : String) (m : Member)
    (h : net 0 (effectiveHeaders hdrs hook) = Attempt.resp r)
    (hn2 : ¬ (200 ≤ r.status ∧ r.status ≤ 299))
    (hfin : r.status ≠ 404 ∨ cfg.retry_count = 0)
    (hb : r.body = some (PyVal.pyDict d))
    (hx : List.lookup "error" d = some (PyVal.pyStr x))
    (hm : errorsByCodeGet cfg.members x = some m) :
    (ApiBase._call cfg net hdrs hook path path_abs handler).2 =
        Outcome.apiErr ⟨some r.status, some m, some (urlOf cfg.base path path_abs),
          some (PyVal.pyDict d), none⟩ ∧
      ErrSig.errorAttr ⟨some r.status, some m, some (urlOf cfg.base path path_abs),
          some (PyVal.pyDict d), none⟩ = ErrorAttr.member m ∧
      ErrSig.responseBodyAttr ⟨some r.status, some m, some (urlOf cfg.base path path_abs),
          some (PyVal.pyDict d), none⟩ = PyVal.pyDict d := by
  have hn4 : ¬ (r.status = 404 ∧ 0 < cfg.retry_count) := by
    rcases hfin with hfin | hfin
    · exact fun hc => hfin hc.1
    · omega
  have key := callAux_break cfg net hdrs hook (urlOf cfg.base path path_abs) handler 0 r h hn2 hn4
  have hcls : (classify (α := α) cfg.members (urlOf cfg.base path path_abs) r).2 =
      Outcome.apiErr ⟨some r.status, some m, some (urlOf cfg.base path path_abs),
        some (PyVal.pyDict d), none⟩ := by
    unfold classify
    simp [hb, jsonOf, pyGet, hx, pyInErrors, hm]
  refine ⟨?_, rfl, rfl⟩
  unfold ApiBase._call
  rw [key]
  exact hcls

/-- Witness for C3 at a concrete input: status 400 with body
`{"error": "NOT_FOUND"}` against a single-member enumeration. -/
theorem c3_known_code_classified_witness :
    (ApiBase._call ⟨"b", [⟨"NOT_FOUND", "NOT_FOUND"⟩], 0, 0⟩
          (fun _ _ => Attempt.resp ⟨400, some (PyVal.pyDict [("error", PyVal.pyStr "NOT_FOUND")])⟩)
          none none "p" false (fun r => r.status)).2 =
        Outcome.apiErr ⟨some 400, some ⟨"NOT_FOUND", "NOT_FOUND"⟩, some (urlOf "b" "p" false),
          some (PyVal.pyDict [("error", PyVal.pyStr "NOT_FOUND")]), none⟩ ∧
      ErrSig.errorAttr ⟨some 400, some ⟨"NOT_FOUND", "NOT_FOUND"⟩, some (urlOf "b" "p" false),
          some (PyVal.pyDict [("error", PyVal.pyStr "NOT_FOUND")]), none⟩ =
        ErrorAttr.member ⟨"NOT_FOUND", "NOT_FOUND"⟩ ∧
      ErrSig.responseBodyAttr ⟨some 400, some ⟨"NOT_FOUND", "NOT_FOUND"⟩, some (urlOf "b" "p" false),
          some (PyVal.pyDict [("error", PyVal.pyStr "NOT_FOUND")]), none⟩ =
        PyVal.pyDict [("error", PyVal.pyStr "NOT_FOUND")] :=
  c3_known_code_classified ⟨"b", [⟨"NOT_FOUND", "NOT_FOUND"⟩], 0, 0⟩
    (fun _ _ => Attempt.resp ⟨400, some (PyVal.pyDict [("error", PyVal.pyStr "NOT_FOUND")])⟩)
    none none "p" false (fun r => r.status)
    ⟨400, some (PyVal.pyDict [("error", PyVal.pyStr "NOT_FOUND")])⟩
    [("error", PyVal.pyStr "NOT_FOUND")] "NOT_FOUND" ⟨"NOT_FOUND", "NOT_FOUND"⟩
    rfl (by decide) (Or.inl (by decide)) rfl rfl rfl

/-- Claim C7: a final non-2xx response whose body is not valid JSON makes the
dispatch routine raise the generic `ApiCallException` carrying only the
status code and the resolved URL; its `error` attribute is the `EmptyError`
placeholder and its `response_body` attribute is the empty mapping. -/
theorem c7_invalid_json_generic {α : Type} (cfg : Config)
    (net : Nat → Option Headers → Attempt) (hdrs hook : Option Headers)
    (path : String) (path_abs : Bool) (handler : Resp → α) (r : Resp)
    (h : net 0 (effectiveHeaders hdrs hook) = Attempt.resp r)
    (hb : r.body = none)
    (hn2 : ¬ (200 ≤ r.status ∧ r.status ≤ 299))
    (hfin : r.status ≠ 404 ∨ cfg.retry_count = 0) :
    (ApiBase._call cfg net hdrs hook path path_abs handler).2 =
        Outcome.apiErr ⟨some r.status, none, some (urlOf cfg.base path path_abs), none, none⟩ ∧
      ErrSig.errorAttr ⟨some r.status, none, some (urlOf cfg.base path path_abs), none, none⟩ =
        ErrorAttr.empty ∧
      ErrSig.responseBodyAttr ⟨some r.status, none, some (urlOf cfg.base path path_abs), none, none⟩ =
        PyVal.pyDict [] := by
  have hn4 : ¬ (r.status = 404 ∧ 0 < cfg.retry_count) := by
    rcases hfin with hfin | hfin
    · exact fun hc => hfin hc.1
    · omega
  have key := callAux_break cfg net hdrs hook (urlOf cfg.base path path_abs) handler 0 r h hn2 hn4
  refine ⟨?_, rfl, rfl⟩
  unfold ApiBase._call
  rw [key]
  unfold classify
  simp [hb, jsonOf, pyGet, pyInErrors]

/-- Witness for C7 at a concrete input: a 500 response with a body that is
not valid JSON. -/
theorem c7_invalid_json_generic_witness :
    (ApiBase._call ⟨"b", [⟨"X", "X"⟩], 0, 0⟩ (fun _ _ => Attempt.resp ⟨500, none⟩)
          none none "p" false (fun r => r.status)).2 =
        Outcome.apiErr ⟨some 500, none, some (urlOf "b" "p" false), none, none⟩ ∧
      ErrSig.errorAttr ⟨some 500, none, some (urlOf "b" "p" false), none, none⟩ =
        ErrorAttr.empty ∧
      ErrSig.responseBodyAttr ⟨some 500, none, some (urlOf "b" "p" false), none, none⟩ =
        PyVal.pyDict [] :=
  c7_invalid_json_generic ⟨"b", [⟨"X", "X"⟩], 0, 0⟩ (fun _ _ => Attempt.resp ⟨500, none⟩)
    none none "p" false (fun r => r.status) ⟨500, none⟩ rfl rfl (by decide) (Or.inl (by decide))

/-- Counterexample to C4 as stated: a final 400 response whose body decodes
to the JSON array `[]` (valid JSON, not a mapping) makes `resp_j.get('error')`
raise an `AttributeError`, which the `except ValueError` clause does not
catch: an exception that is not `ApiCallException` escapes. -/
theorem c4_counterexample :
    (ApiBase._call ⟨"b", [], 0, 0⟩ (fun _ _ => Attempt.resp ⟨400, some (PyVal.pyList [])⟩)
        none none "p" false (fun r => r.status)).2 = Outcome.pyErr "AttributeError" := by
  have key := callAux_break ⟨"b", [], 0, 0⟩
    (fun _ _ => Attempt.resp ⟨400, some (PyVal.pyList [])⟩) none none
    (urlOf "b" "p" false) (fun r => r.status) 0 ⟨400, some (PyVal.pyList [])⟩
    rfl (by decide) (by decide)
  unfold ApiBase._call
  rw [key]
  unfold classify
  simp [jsonOf, pyGet]

/-- A decoded-body value on which `response.get('error')` and
`error in errors_by_code` cannot raise: a list or dict `error` value is
unhashable (`TypeError` on `in`). -/
def safeErrorVal : PyVal → Prop
  | PyVal.pyList _ => False
  | PyVal.pyDict _ => False
  | _ => True

/-- An attempt outcome that cannot make classification raise a non-structured
exception: a connection error, an unparseable body, or a JSON object whose
`error` value is hashable. -/
def attemptSafe : Attempt → Prop
  | Attempt.connErr => True
  | Attempt.resp r =>
    match r.body with
    | none => True
    | some (PyVal.pyDict d) => safeErrorVal ((List.lookup "error" d).getD PyVal.pyNone)
    | some _ => False

/-- Classification of a safe response never raises a Python-level exception. -/
theorem classify_safe_no_pyErr {α : Type} (ms : List Member) (url : String) (r : Resp)
    (hs : attemptSafe (Attempt.resp r)) (s : String) :
    (classify (α := α) ms url r).2 ≠ Outcome.pyErr s := by
  simp only [attemptSafe] at hs
  unfold classify
  cases hb : r.body with
  | none =>
    simp [hb, jsonOf, pyGet, pyInErrors]
  | some v =>
    rw [hb] at hs
    cases v with
    | pyDict d =>
      simp only [hb, jsonOf, pyGet]
      have hs' : safeErrorVal ((List.lookup "error" d).getD PyVal.pyNone) := hs
      revert hs'
      generalize (List.lookup "error" d).getD PyVal.pyNone = ev
      intro hs'
      cases ev with
      | pyList xs => simp [safeErrorVal] at hs'
      | pyDict e => simp [safeErrorVal] at hs'
      | pyStr t => cases herr : errorsByCodeGet ms t <;> simp [pyInErrors, herr]
      | pyNone => simp [pyInErrors]
      | pyBool b => simp [pyInErrors]
      | pyInt n => simp [pyInErrors]
    | pyNone => simp at hs
    | pyBool b => simp at hs
    | pyInt n => simp at hs
    | pyStr t => simp at hs
    | pyList xs => simp at hs

/-- No iteration of the retry loop over safe attempts produces a
Python-level exception. -/
theorem callAux_safe_no_pyErr {α : Type} (cfg : Config)
    (net : Nat → Option Headers → Attempt) (hdrs hook : Option Headers)
    (url : String) (handler : Resp → α)
    (hsafe : ∀ j, attemptSafe (net j (effectiveHeaders hdrs hook))) :
    ∀ i s, (callAux cfg net hdrs hook url handler i).2 ≠ Outcome.pyErr s := by
  suffices H : ∀ n i, cfg.retry_count - i ≤ n →
      ∀ s, (callAux cfg net hdrs hook url handler i).2 ≠ Outcome.pyErr s by
    exact fun i s => H (cfg.retry_count - i) i (le_refl _) s
  intro n
  induction n with
  | zero =>
    intro i hle s
    cases hnet : net i (effectiveHeaders hdrs hook) with
    | connErr => rw [callAux_connErr cfg net hdrs hook url handler i hnet]; simp
    | resp r =>
      by_cases h2 : 200 ≤ r.status ∧ r.status ≤ 299
      · rw [callAux_2xx cfg net hdrs hook url handler i r hnet h2.1 h2.2]; simp
      · have hn4 : ¬ (r.status = 404 ∧ i < cfg.retry_count) := by omega
        rw [callAux_break cfg net hdrs hook url handler i r hnet h2 hn4]
        have hs := hsafe i
        rw [hnet] at hs
        exact classify_safe_no_pyErr cfg.members url r hs s
  | succ n ih =>
    intro i hle s
    cases hnet : net i (effectiveHeaders hdrs hook) with
    | connErr => rw [callAux_connErr cfg net hdrs hook url handler i hnet]; simp
    | resp r =>
      by_cases h2 : 200 ≤ r.status ∧ r.status ≤ 299
      · rw [callAux_2xx cfg net hdrs hook url handler i r hnet h2.1 h2.2]; simp
      · by_cases h4 : r.status = 404 ∧ i < cfg.retry_count
        · rw [callAux_retry404 cfg net hdrs hook url handler i r hnet h4.1 h4.2]
          exact ih (i + 1) (by omega) s
        · rw [callAux_break cfg net hdrs hook url handler i r hnet h2 h4]
          have hs := hsafe i
          rw [hnet] at hs
          exact classify_safe_no_pyErr cfg.members url r hs s

/-- Claim C4, amended: for every call whose attempts are safe — each
response body either is not valid JSON, or decodes to a JSON object whose
`error` value is not a list or object — every failure of the dispatch
routine is the single structured `ApiCallException`; no Python-level
exception escapes.  (As stated the claim is false: see the counterexample,
a body decoding to a JSON array escapes with `AttributeError`.) -/
theorem c4_structured_failures_only {α : Type} (cfg : Config)
    (net : Nat → Option Headers → Attempt) (hdrs hook : Option Headers)
    (path : String) (path_abs : Bool) (handler : Resp → α)
    (hsafe : ∀ j, attemptSafe (net j (effectiveHeaders hdrs hook))) (s : String) :
    (ApiBase._call cfg net hdrs hook path path_abs handler).2 ≠ Outcome.pyErr s := by
  unfold ApiBase._call
  exact callAux_safe_no_pyErr cfg net hdrs hook _ handler hsafe 0 s

/-- Witness for the amended C4 at a concrete input: a 400 response whose
body is the object `{"error": "X"}`. -/
theorem c4_structured_failures_only_witness :
    (ApiBase._call ⟨"b", [], 0, 0⟩
        (fun _ _ => Attempt.resp ⟨400, some (PyVal.pyDict [("error", PyVal.pyStr "X")])⟩)
        none none "p" false (fun r => r.status)).2 ≠ Outcome.pyErr "AttributeError" :=
  c4_structured_failures_only ⟨"b", [], 0, 0⟩
    (fun _ _ => Attempt.resp ⟨400, some (PyVal.pyDict [("error", PyVal.pyStr "X")])⟩)
    none none "p" false (fun r => r.status)
    (fun _ => by simp [attemptSafe, safeErrorVal, List.lookup]) "AttributeError"

/-- Attempt `j` returned a response with status code 404. -/
def attempt404 (net : Nat → Option Headers → Attempt) (h : Option Headers) (j : Nat) : Prop :=
  ∃ r : Resp, net j h = Attempt.resp r ∧ r.status = 404

/-- Event recogniser: a transport request. -/
def isReq : Ev → Bool
  | Ev.request => true
  | _ => false

/-- Event recogniser: a `time.sleep`. -/
def isSleepEv : Ev → Bool
  | Ev.sleep _ => true
  | _ => false

/-- Unrolling the retry loop over `k` leading 404 responses: the trace gains
`k` blocks of request-warn-sleep and the loop continues at attempt `i + k`. -/
theorem callAux_unroll_404 {α : Type} (cfg : Config)
    (net : Nat → Option Headers → Attempt) (hdrs hook : Option Headers)
    (url : String) (handler : Resp → α) :
    ∀ k i : Nat, i + k ≤ cfg.retry_count →
    (∀ j, i ≤ j → j < i + k → attempt404 net (effectiveHeaders hdrs hook) j) →
    callAux cfg net hdrs hook url handler i =
      ((List.replicate k [Ev.request, Ev.warn, Ev.sleep cfg.retry_delay]).flatten ++
          (callAux cfg net hdrs hook url handler (i + k)).1,
        (callAux cfg net hdrs hook url handler (i + k)).2) := by
  intro k
  induction k with
  | zero => intro i _ _; simp
  | succ k ih =>
    intro i hik h404
    obtain ⟨r, hnet, hst⟩ := h404 i (le_refl i) (by omega)
    rw [callAux_retry404 cfg net hdrs hook url handler i r hnet hst (by omega)]
    have hstep := ih (i + 1) (by omega) (fun j hj1 hj2 => h404 j (by omega) (by omega))
    rw [hstep]
    have hidx : i + 1 + k = i + (k + 1) := by omega
    rw [hidx]
    simp [List.replicate_succ]

/-- Event counts of the `k` unrolled retry blocks. -/
theorem replicate_block_counts (k d : Nat) :
    ((List.replicate k [Ev.request, Ev.warn, Ev.sleep d]).flatten.count Ev.warn = k) ∧
      ((List.replicate k [Ev.request, Ev.warn, Ev.sleep d]).flatten.countP isReq = k) ∧
      ((List.replicate k [Ev.request, Ev.warn, Ev.sleep d]).flatten.filter isSleepEv =
        List.replicate k (Ev.sleep d)) := by
  induction k with
  | zero => simp
  | succ k ih =>
    refine ⟨?_, ?_, ?_⟩ <;>
      simp [List.replicate_succ, List.count_cons, List.countP_cons, List.filter,
        isReq, isSleepEv, ih.1, ih.2.1, ih.2.2]

/-- Once the loop can no longer retry (the retry budget is exhausted or the
current attempt is not a 404 response), the remaining trace is one request,
possibly followed by the classification step. -/
theorem callAux_tail_shape {α : Type} (cfg : Config)
    (net : Nat → Option Headers → Attempt) (hdrs hook : Option Headers)
    (url : String) (handler : Resp → α) (k : Nat)
    (hstop : k = cfg.retry_count ∨
      ∀ r : Resp, net k (effectiveHeaders hdrs hook) = Attempt.resp r → r.status ≠ 404) :
    (callAux cfg net hdrs hook url handler k).1 = [Ev.request] ∨
      (callAux cfg net hdrs hook url handler k).1 = [Ev.request, Ev.classifyStep] := by
  cases hnet : net k (effectiveHeaders hdrs hook) with
  | connErr => left; rw [callAux_connErr cfg net hdrs hook url handler k hnet]
  | resp r =>
    by_cases h2 : 200 ≤ r.status ∧ r.status ≤ 299
    · left
      rw [callAux_2xx cfg net hdrs hook url handler k r hnet h2.1 h2.2]
    · right
      have hn4 : ¬ (r.status = 404 ∧ k < cfg.retry_count) := by
        rcases hstop with hstop | hstop
        · omega
        · exact fun hc => hstop r hnet hc.1
      rw [callAux_break cfg net hdrs hook url handler k r hnet h2 hn4]
      rw [classify_fst]

/-- Claim C1: with `retry_count = n`, when exactly the first `k` attempts
(`k ≤ n`) return 404 — `hstop` says the run of 404s stops at attempt `k`,
either because the budget is exhausted (`k = n`) or because attempt `k`
does not return 404 — the dispatch routine performs exactly `k` retries:
the trace is `k` blocks of request, warning, `sleep retry_delay` followed by
the final attempt; it contains `k` warnings, `k` sleeps all of `retry_delay`,
and `k + 1` requests.  And when all `n + 1` attempts return 404 the call
fails (never returns a handler value). -/
theorem c1_retry_until_exhausted {α : Type} (cfg : Config)
    (net : Nat → Option Headers → Attempt) (hdrs hook : Option Headers)
    (path : String) (path_abs : Bool) (handler : Resp → α) (k : Nat)
    (hk : k ≤ cfg.retry_count)
    (h404 : ∀ j, j < k → attempt404 net (effectiveHeaders hdrs hook) j)
    (hstop : k = cfg.retry_count ∨
      ∀ r : Resp, net k (effectiveHeaders hdrs hook) = Attempt.resp r → r.status ≠ 404) :
    ((ApiBase._call cfg net hdrs hook path path_abs handler).1 =
        (List.replicate k [Ev.request, Ev.warn, Ev.sleep cfg.retry_delay]).flatten ++
          (callAux cfg net hdrs hook (urlOf cfg.base path path_abs) handler k).1) ∧
      ((ApiBase._call cfg net hdrs hook path path_abs handler).1.count Ev.warn = k) ∧
      ((ApiBase._call cfg net hdrs hook path path_abs handler).1.filter isSleepEv =
        List.replicate k (Ev.sleep cfg.retry_delay)) ∧
      ((ApiBase._call cfg net hdrs hook path path_abs handler).1.countP isReq = k + 1) ∧
      ((∀ j, j ≤ cfg.retry_count → attempt404 net (effectiveHeaders hdrs hook) j) →
        ∀ a, (ApiBase._call cfg net hdrs hook path path_abs handler).2 ≠ Outcome.ok a) := by
  have hpre := callAux_unroll_404 cfg net hdrs hook (urlOf cfg.base path path_abs) handler k 0
    (by omega) (fun j hj1 hj2 => h404 j (by omega))
  simp only [Nat.zero_add] at hpre
  have htail := callAux_tail_shape cfg net hdrs hook (urlOf cfg.base path path_abs) handler k hstop
  have hcounts := replicate_block_counts k cfg.retry_delay
  have hfst : (ApiBase._call cfg net hdrs hook path path_abs handler).1 =
      (List.replicate k [Ev.request, Ev.warn, Ev.sleep cfg.retry_delay]).flatten ++
        (callAux cfg net hdrs hook (urlOf cfg.base path path_abs) handler k).1 := by
    unfold ApiBase._call
    rw [hpre]
  refine ⟨hfst, ?_, ?_, ?_, ?_⟩
  · rw [hfst, List.count_append, hcounts.1]
    rcases htail with htail | htail <;> rw [htail] <;> rfl
  · rw [hfst, List.filter_append, hcounts.2.2]
    rcases htail with htail | htail <;> rw [htail] <;> simp [isSleepEv]
  · rw [hfst, List.countP_append, hcounts.2.1]
    rcases htail with htail | htail <;> rw [htail] <;> rfl
  · intro hall a
    have hpre' := callAux_unroll_404 cfg net hdrs hook (urlOf cfg.base path path_abs) handler
      cfg.retry_count 0 (by omega) (fun j hj1 hj2 => hall j (by omega))
    obtain ⟨r, hnet, hst⟩ := hall cfg.retry_count (le_refl _)
    have hn2 : ¬ (200 ≤ r.status ∧ r.status ≤ 299) := by omega
    have hn4 : ¬ (r.status = 404 ∧ cfg.retry_count < cfg.retry_count) := by omega
    have hbrk := callAux_break cfg net hdrs hook (urlOf cfg.base path path_abs) handler
      cfg.retry_count r hnet hn2 hn4
    unfold ApiBase._call
    rw [hpre']
    simp only [Nat.zero_add]
    rw [hbrk]
    exact classify_ne_ok cfg.members (urlOf cfg.base path path_abs) r a

/-- Witness for C1 at a concrete input: `retry_count = 2`, `retry_delay = 7`,
all three attempts return 404. -/
theorem c1_retry_until_exhausted_witness :
    ((ApiBase._call ⟨"b", [], 2, 7⟩ (fun _ _ => Attempt.resp ⟨404, none⟩) none none "p" false
          (fun r => r.status)).1 =
        (List.replicate 2 [Ev.request, Ev.warn, Ev.sleep 7]).flatten ++
          (callAux ⟨"b", [], 2, 7⟩ (fun _ _ => Attempt.resp ⟨404, none⟩) none none
            (urlOf "b" "p" false) (fun r => r.status) 2).1) ∧
      ((ApiBase._call ⟨"b", [], 2, 7⟩ (fun _ _ => Attempt.resp ⟨404, none⟩) none none "p" false
          (fun r => r.status)).1.count Ev.warn = 2) ∧
      ((ApiBase._call ⟨"b", [], 2, 7⟩ (fun _ _ => Attempt.resp ⟨404, none⟩) none none "p" false
          (fun r => r.status)).1.filter isSleepEv = List.replicate 2 (Ev.sleep 7)) ∧
      ((ApiBase._call ⟨"b", [], 2, 7⟩ (fun _ _ => Attempt.resp ⟨404, none⟩) none none "p" false
          (fun r => r.status)).1.countP isReq = 2 + 1) ∧
      ((∀ j, j ≤ 2 →
          attempt404 (fun _ _ => Attempt.resp ⟨404, none⟩) (effectiveHeaders none none) j) →
        ∀ a, (ApiBase._call ⟨"b", [], 2, 7⟩ (fun _ _ => Attempt.resp ⟨404, none⟩) none none
          "p" false (fun r => r.status)).2 ≠ Outcome.ok a) :=
  c1_retry_until_exhausted ⟨"b", [], 2, 7⟩ (fun _ _ => Attempt.resp ⟨404, none⟩) none none
    "p" false (fun r => r.status) 2 (by decide)
    (fun j hj => ⟨⟨404, none⟩, rfl, rfl⟩) (Or.inl rfl)

/-- The retry loop depends on the caller's `headers` argument only through
`headers or self.headers(**kwargs)`, evaluated at each iteration. -/
theorem callAux_headers_congr {α : Type} (cfg : Config)
    (net : Nat → Option Headers → Attempt) (h1 h2 hook : Option Headers)
    (url : String) (handler : Resp → α)
    (heq : effectiveHeaders h1 hook = effectiveHeaders h2 hook) :
    ∀ i, callAux cfg net h1 hook url handler i = callAux cfg net h2 hook url handler i := by
  suffices H : ∀ n i, cfg.retry_count - i ≤ n →
      callAux cfg net h1 hook url handler i = callAux cfg net h2 hook url handler i by
    exact fun i => H (cfg.retry_count - i) i (le_refl _)
  intro n
  induction n with
  | zero =>
    intro i hle
    cases hnet : net i (effectiveHeaders h1 hook) with
    | connErr =>
      rw [callAux_connErr cfg net h1 hook url handler i hnet,
        callAux_connErr cfg net h2 hook url handler i (by rw [← heq]; exact hnet)]
    | resp r =>
      have hnet2 : net i (effectiveHeaders h2 hook) = Attempt.resp r := by
        rw [← heq]; exact hnet
      by_cases hc2 : 200 ≤ r.status ∧ r.status ≤ 299
      · rw [callAux_2xx cfg net h1 hook url handler i r hnet hc2.1 hc2.2,
          callAux_2xx cfg net h2 hook url handler i r hnet2 hc2.1 hc2.2]
      · have hn4 : ¬ (r.status = 404 ∧ i < cfg.retry_count) := by omega
        rw [callAux_break cfg net h1 hook url handler i r hnet hc2 hn4,
          callAux_break cfg net h2 hook url handler i r hnet2 hc2 hn4]
  | succ n ih =>
    intro i hle
    cases hnet : net i (effectiveHeaders h1 hook) with
    | connErr =>
      rw [callAux_connErr cfg net h1 hook url handler i hnet,
        callAux_connErr cfg net h2 hook url handler i (by rw [← heq]; exact hnet)]
    | resp r =>
      have hnet2 : net i (effectiveHeaders h2 hook) = Attempt.resp r := by
        rw [← heq]; exact hnet
      by_cases hc2 : 200 ≤ r.status ∧ r.status ≤ 299
      · rw [callAux_2xx cfg net h1 hook url handler i r hnet hc2.1 hc2.2,
          callAux_2xx cfg net h2 hook url handler i r hnet2 hc2.1 hc2.2]
      · by_cases h4 : r.status = 404 ∧ i < cfg.retry_count
        · rw [callAux_retry404 cfg net h1 hook url handler i r hnet h4.1 h4.2,
            callAux_retry404 cfg net h2 hook url handler i r hnet2 h4.1 h4.2,
            ih (i + 1) (by omega)]
        · rw [callAux_break cfg net h1 hook url handler i r hnet hc2 h4,
            callAux_break cfg net h2 hook url handler i r hnet2 hc2 h4]

/-- Claim C10: in the dispatch routine and in every verb method, a
caller-supplied empty headers mapping behaves exactly like an absent one:
`{} or self.headers(**kwargs)` picks the hook's result either way. -/
theorem c10_empty_headers_like_none {α : Type} (cfg : Config)
    (net : Nat → Option Headers → Attempt) (hook : Option Headers)
    (path : String) (path_abs : Bool) (handler : Resp → α) :
    effectiveHeaders (some []) hook = hook ∧
      effectiveHeaders none hook = hook ∧
      ApiBase._call cfg net (some []) hook path path_abs handler =
        ApiBase._call cfg net none hook path path_abs handler ∧
      ApiBase.get cfg net (some []) hook path path_abs handler =
        ApiBase.get cfg net none hook path path_abs handler ∧
      ApiBase.put cfg net (some []) hook path path_abs handler =
        ApiBase.put cfg net none hook path path_abs handler ∧
      ApiBase.post cfg net (some []) hook path path_abs handler =
        ApiBase.post cfg net none hook path path_abs handler ∧
      ApiBase.patch cfg net (some []) hook path path_abs handler =
        ApiBase.patch cfg net none hook path path_abs handler ∧
      ApiBase.delete cfg net (some []) hook path path_abs handler =
        ApiBase.delete cfg net none hook path path_abs handler := by
  have hcall : ApiBase._call cfg net (some []) hook path path_abs handler =
      ApiBase._call cfg net none hook path path_abs handler := by
    unfold ApiBase._call
    exact callAux_headers_congr cfg net (some []) none hook
      (urlOf cfg.base path path_abs) handler rfl 0
  exact ⟨rfl, rfl, hcall, hcall, hcall, hcall, hcall, hcall⟩

/-- Correctness of `afterLastSlashChars`: it really is the suffix after the last `'/'`: the
whole list when there is no slash, else a slash-free suffix preceded by a
`'/'`. -/
theorem afterLastSlashChars_spec :
    ∀ l : List Char,
      ('/' ∉ l → afterLastSlashChars l = l) ∧
      ('/' ∈ l → ∃ pre, l = pre ++ '/' :: afterLastSlashChars l ∧
        '/' ∉ afterLastSlashChars l) := by
  intro l
  induction l with
  | nil => simp [afterLastSlashChars]
  | cons c cs ih =>
    constructor
    · intro hnot
      have hcond : ¬ (c = '/' ∨ '/' ∈ cs) := by
        intro h
        rcases h with h | h
        · exact hnot (by simp [h])
        · exact hnot (List.mem_cons_of_mem _ h)
      simp only [afterLastSlashChars]
      rw [if_neg hcond]
    · intro hin
      by_cases hcs : '/' ∈ cs
      · have hcond : c = '/' ∨ '/' ∈ cs := Or.inr hcs
        simp only [afterLastSlashChars]
        rw [if_pos hcond]
        obtain ⟨pre, hpre, hnos⟩ := ih.2 hcs
        exact ⟨c :: pre, by rw [List.cons_append, ← hpre], hnos⟩
      · have hc : c = '/' := by
          rcases List.mem_cons.mp hin with h | h
          · exact h.symm
          · exact absurd h hcs
        simp only [afterLastSlashChars]
        rw [if_pos (Or.inl hc)]
        rw [ih.1 hcs]
        exact ⟨[], by rw [hc, List.nil_append], hcs⟩

/-- Lift of `afterLastSlashChars_spec` to strings. -/
theorem afterLastSlash_spec (u : String) :
    ('/' ∉ u.data → afterLastSlash u = u) ∧
    ('/' ∈ u.data → ∃ pre, u.data = pre ++ '/' :: (afterLastSlash u).data ∧
      '/' ∉ (afterLastSlash u).data) := by
  obtain ⟨l⟩ := u
  have h := afterLastSlashChars_spec l
  constructor
  · intro hn
    exact congrArg String.mk (h.1 hn)
  · intro hin
    exact h.2 hin

/-- Claim C8: `download_file` writes to the local file named by the URL's
final path segment (the slash-free suffix after the last `'/'`, or the whole
URL when it has none), returns that local path on a successful response, and
raises an `ApiCallException` carrying the status code and the source URL when
the response is not successful. -/
theorem c8_download_file (fs : FS) (source_url local_dir : String) (status : Nat)
    (chunks : List Bytes) :
    ((ApiBase.download_file fs source_url local_dir status chunks).2 =
        if respOk status = false then
          DlOutcome.err ⟨some status, none, some source_url, none, none⟩
        else DlOutcome.ok (join_path local_dir (afterLastSlash source_url))) ∧
      (fsRead (ApiBase.download_file fs source_url local_dir status chunks).1
        (join_path local_dir (afterLastSlash source_url)) ≠ none) ∧
      ('/' ∉ source_url.data → afterLastSlash source_url = source_url) ∧
      ('/' ∈ source_url.data → ∃ pre, source_url.data =
          pre ++ '/' :: (afterLastSlash source_url).data ∧
        '/' ∉ (afterLastSlash source_url).data) := by
  refine ⟨?_, ?_, (afterLastSlash_spec source_url).1, (afterLastSlash_spec source_url).2⟩
  · by_cases h : respOk status = false <;> simp [ApiBase.download_file, h]
  · by_cases h : respOk status = false <;> simp [ApiBase.download_file, h, fsRead, fsWrite]

/-- Witness for C8 at a concrete input: a successful download of
`a/b.png` into directory `d`. -/
theorem c8_download_file_witness :
    ((ApiBase.download_file [] "a/b.png" "d" 200 [[1, 2]]).2 =
        if respOk 200 = false then
          DlOutcome.err ⟨some 200, none, some "a/b.png", none, none⟩
        else DlOutcome.ok (join_path "d" (afterLastSlash "a/b.png"))) ∧
      (fsRead (ApiBase.download_file [] "a/b.png" "d" 200 [[1, 2]]).1
        (join_path "d" (afterLastSlash "a/b.png")) ≠ none) ∧
      ('/' ∉ "a/b.png".data → afterLastSlash "a/b.png" = "a/b.png") ∧
      ('/' ∈ "a/b.png".data → ∃ pre, "a/b.png".data =
          pre ++ '/' :: (afterLastSlash "a/b.png").data ∧
        '/' ∉ (afterLastSlash "a/b.png").data) :=
  c8_download_file [] "a/b.png" "d" 200 [[1, 2]]

/-- Claim C9: `download_file` opens (creates or truncates) the destination
file before issuing the request, so when the response is not successful the
destination file exists and is empty at the moment the exception is raised. -/
theorem c9_truncated_on_failure (fs : FS) (source_url local_dir : String) (status : Nat)
    (chunks : List Bytes) (h : respOk status = false) :
    fsRead (ApiBase.download_file fs source_url local_dir status chunks).1
        (join_path local_dir (afterLastSlash source_url)) = some [] ∧
      (ApiBase.download_file fs source_url local_dir status chunks).2 =
        DlOutcome.err ⟨some status, none, some source_url, none, none⟩ := by
  constructor <;> simp [ApiBase.download_file, h, fsRead, fsWrite]

/-- Witness for C9 at a concrete input: a 404 response during download. -/
theorem c9_truncated_on_failure_witness :
    fsRead (ApiBase.download_file [] "a/b.png" "d" 404 []).1
        (join_path "d" (afterLastSlash "a/b.png")) = some [] ∧
      (ApiBase.download_file [] "a/b.png" "d" 404 []).2 =
        DlOutcome.err ⟨some 404, none, some "a/b.png", none, none⟩ :=
  c9_truncated_on_failure [] "a/b.png" "d" 404 [] (by decide)

end PmgRestClient
